import Mathlib

/-!
Verification of the Keccak builtin runner of the cairo-rs virtual machine
(`src/vm/runners/builtin_runner/keccak.rs`), against its natural-language
specification.  The Rust code is shallowly embedded: machine integers become
`Nat` (with explicit `% 2^64` where the Rust code wraps), field elements of
the Cairo prime field become `Nat` values below `CAIRO_PRIME`, fallible Rust
functions returning `Result` become `Except`, and `Option` stays `Option`.
-/

set_option maxRecDepth 10000

deriving instance DecidableEq for Except

namespace CairoRs

/-- The Cairo prime `P = 2^251 + 17·2^192 + 1` (spec section 3, and the
`felt` crate backing `Felt`). -/
def CAIRO_PRIME : Nat := 2 ^ 251 + 17 * 2 ^ 192 + 1

/-- `2^64`, the bound of Rust `u64` values. -/
def U64_MOD : Nat := 2 ^ 64

/-- A relocatable address `(segment_index, offset)`; `segment_index` is an
`isize` in the source (may be negative for temporary segments), `offset` a
`usize` (`src/types/relocatable.rs`, spec section 3). -/
structure Relocatable where
  segment_index : Int
  offset : Nat
  deriving DecidableEq, Repr

/-- A memory cell value: either a field element or a relocatable
(`MaybeRelocatable` in the source). -/
inductive MaybeRelocatable where
  | int (value : Nat)
  | relocatable (addr : Relocatable)
  deriving DecidableEq, Repr

/-- Adding a `usize` to a relocatable advances the offset
(the `Add<usize>` impl used as `first_input_addr + i` in the source). -/
def relocAdd (a : Relocatable) (n : Nat) : Relocatable :=
  ⟨a.segment_index, a.offset + n⟩

/-- Subtracting a `usize` from a relocatable; fails (like the `Sub<usize>`
impl used as `address - index` and `pointer - 1` in the source) when the
offset would underflow. -/
def relocSub (a : Relocatable) (n : Nat) : Option Relocatable :=
  if n ≤ a.offset then some ⟨a.segment_index, a.offset - n⟩ else none

/-- Memory errors reachable from the Keccak runner
(`src/vm/errors/memory_errors.rs`). -/
inductive MemoryError where
  | ExpectedInteger (addr : Relocatable)
  | ExpectedRelocatable (addr : Relocatable)
  | MissingSegmentUsedSizes
  | ErrorCalculatingMemoryUnits
  deriving DecidableEq, Repr

/-- Runner errors reachable from the Keccak runner
(`src/vm/errors/runner_errors.rs`). -/
inductive RunnerError where
  | KeccakNoFirstInput
  | KeccakInputCellsNotU64
  | IntegerBiggerThanPowerOfTwo (addr : MaybeRelocatable) (bits : Nat) (value : Nat)
  | SliceToArrayError
  | Memory (e : MemoryError)
  | NoStopPointer (name : String)
  | InvalidStopPointerIndex (name : String) (sp : Relocatable) (base : Nat)
  | InvalidStopPointer (name : String) (expected : Relocatable) (got : Relocatable)
  deriving DecidableEq, Repr

/-- The builtin name constant passed into errors (defined in
`builtin_runner/mod.rs`, outside the sources at hand; the string's exact
value is never load-bearing, it is carried opaquely through error values). -/
def KECCAK_BUILTIN_NAME : String := "keccak"

/-- The VM memory, restricted to what the Keccak runner observes: a finite
association of addresses to values.  `Memory::get` is a plain lookup
(deduction is driven at the VM level, not inside `Memory::get`). -/
structure Memory where
  data : List (Relocatable × MaybeRelocatable)
  deriving DecidableEq, Repr

/-- `Memory::get`: the stored value at an address, if any. -/
def Memory.get (m : Memory) (a : Relocatable) : Option MaybeRelocatable :=
  (m.data.find? (fun p => decide (p.1 = a))).map (fun p => p.2)

/-- `Memory::get_integer`: like `get` but fails with `ExpectedInteger` if
the cell holds a relocatable or is empty (spec section 4.1). -/
def Memory.get_integer (m : Memory) (a : Relocatable) : Except MemoryError Nat :=
  match m.get a with
  | some (.int v) => .ok v
  | _ => .error (.ExpectedInteger a)

/-- `Memory::get_relocatable`: dual of `get_integer` (spec section 4.1). -/
def Memory.get_relocatable (m : Memory) (a : Relocatable) : Except MemoryError Relocatable :=
  match m.get a with
  | some (.relocatable r) => .ok r
  | _ => .error (.ExpectedRelocatable a)

/-- The segment manager as the Keccak runner sees it: the memory plus the
optional table of used sizes per segment (spec sections 3 and 4.2). -/
structure MemorySegmentManager where
  memory : Memory
  segment_used_sizes : Option (List Nat)
  deriving DecidableEq, Repr

/-- `MemorySegmentManager::get_segment_used_size` for a segment index. -/
def MemorySegmentManager.get_segment_used_size
    (s : MemorySegmentManager) (i : Nat) : Option Nat :=
  s.segment_used_sizes.bind (fun l => l.get? i)

/-- The VM state as the Keccak runner's accounting functions see it. -/
structure VirtualMachine where
  current_step : Nat
  segments : MemorySegmentManager

/-- Modelled from the spec: `safe_div_usize` from `math_utils` (not under
the sources at hand).  Spec section 4.5: the allocation "Fails if
`current_step` not divisible by `ratio`"; so division succeeds exactly when
the divisor divides the dividend. -/
def safe_div_usize (x y : Nat) : Option Nat :=
  if x % y = 0 then some (x / y) else none

/-- Modelled from the spec: `left_pad_u64` from the hint processor's
`keccak_utils` (not under the sources at hand).  Per its name and its use
to fill the 25-lane state (spec section 4.6), it pads the vector with
`n_zeros` zeros on the left. -/
def left_pad_u64 (bytes : List Nat) (n_zeros : Nat) : List Nat :=
  List.replicate n_zeros 0 ++ bytes

/-- Rotate a 64-bit lane left by `n` (wrapping, as the `keccak` crate's
`u64` arithmetic does). -/
def rotl64 (x n : Nat) : Nat :=
  ((x <<< n) ||| (x >>> (64 - n))) % U64_MOD

/-- Lane `(x, y)` of a 25-lane state stored flat at index `x + 5·y`. -/
def lane (s : List Nat) (x y : Nat) : Nat :=
  s.getD (x + 5 * y) 0

/-- Keccak θ step: xor each lane with the parity of two neighbouring
columns. -/
def keccakTheta (s : List Nat) : List Nat :=
  let c := fun x => lane s x 0 ^^^ lane s x 1 ^^^ lane s x 2 ^^^ lane s x 3 ^^^ lane s x 4
  let d := fun x => c ((x + 4) % 5) ^^^ rotl64 (c ((x + 1) % 5)) 1
  (List.range 25).map (fun i => s.getD i 0 ^^^ d (i % 5))

/-- Per-lane rotation offsets of the ρ step, flat at index `x + 5·y`. -/
def rhoOffsets : List Nat :=
  [0, 1, 62, 28, 27] ++
  [36, 44, 6, 55, 20] ++
  [3, 10, 43, 25, 39] ++
  [41, 45, 15, 21, 8] ++
  [18, 2, 61, 56, 14]

/-- Keccak ρ and π steps combined: lane `(x, y)` rotated by its offset
moves to `(y, 2x + 3y mod 5)`; equivalently the target `(x', y')` draws
from `(x' + 3y' mod 5, x')`. -/
def keccakRhoPi (s : List Nat) : List Nat :=
  (List.range 25).map (fun i =>
    let xp := i % 5
    let yp := i / 5
    let x := (xp + 3 * yp) % 5
    let y := xp
    rotl64 (lane s x y) (rhoOffsets.getD (x + 5 * y) 0))

/-- Keccak χ step: `a[x,y] = b[x,y] xor ((not b[x+1,y]) and b[x+2,y])`. -/
def keccakChi (b : List Nat) : List Nat :=
  (List.range 25).map (fun i =>
    let x := i % 5
    let y := i / 5
    b.getD i 0 ^^^ (((b.getD ((x + 1) % 5 + 5 * y) 0) ^^^ (U64_MOD - 1)) &&& b.getD ((x + 2) % 5 + 5 * y) 0))

/-- One Keccak-f round: θ, ρ, π, χ, then ι (xor the round constant into
lane 0). -/
def keccakRound (s : List Nat) (rc : Nat) : List Nat :=
  let c := keccakChi (keccakRhoPi (keccakTheta s))
  c.set 0 (c.getD 0 0 ^^^ rc)

/-- The 24 round constants of Keccak-f[1600], written in decimal. -/
def KECCAK_ROUND_CONSTANTS : List Nat :=
  [1, 32898, 9223372036854808714,
   9223372039002292224, 32907, 2147483649,
   9223372039002292353, 9223372036854808585, 138,
   136, 2147516425, 2147483658,
   2147516555, 9223372036854775947, 9223372036854808713,
   9223372036854808579, 9223372036854808578, 9223372036854775936,
   32778, 9223372039002259466, 9223372039002292353,
   9223372036854808704, 2147483649, 9223372039002292232]

/-- Modelled from the spec: `keccak::f1600` from the external `keccak`
crate — the standard Keccak-f[1600] permutation on 25 u64 lanes
(spec section 4.6: "outputs are the lanes after one `f1600`
permutation"). -/
def f1600 (s : List Nat) : List Nat :=
  KECCAK_ROUND_CONSTANTS.foldl keccakRound s

/-- `Felt::one() << bits` of the `felt` crate: `2^bits` reduced modulo the
Cairo prime. -/
def felt_one_shl (bits : Nat) : Nat :=
  (1 <<< bits) % CAIRO_PRIME

/-- The `get_int_ref().and_then(|x| x.to_u64())` chain of the source: the
field element held by the cell, provided the cell holds a field element
representable in 64 bits. -/
def maybe_to_u64 (v : MaybeRelocatable) : Option Nat :=
  match v with
  | .int f => if f < U64_MOD then some f else none
  | .relocatable _ => none

/-- Modelled from the spec: `KeccakInstanceDef` from
`types/instance_definitions/keccak_instance_def.rs` (not under the sources
at hand).  Spec section 4.6: `cells_per_instance = 2·n_input_cells` with
one input cell per `state_rep` entry; `builtins_instance_def.rs` (in the
sources) constructs it as `KeccakInstanceDef::new(ratio, state_rep)`. -/
structure KeccakInstanceDef where
  ratio : Nat
  state_rep : List Nat
  instance_per_component : Nat
  deriving DecidableEq, Repr

/-- `KeccakInstanceDef::new(ratio, state_rep)`; the per-component instance
count is not observed by any function verified here. -/
def KeccakInstanceDef.new (r : Nat) (rep : List Nat) : KeccakInstanceDef :=
  ⟨r, rep, 16⟩

/-- `KeccakInstanceDef::cells_per_builtin`: twice the number of input
cells (spec section 4.6). -/
def KeccakInstanceDef.cells_per_builtin (d : KeccakInstanceDef) : Nat :=
  2 * d.state_rep.length

/-- `KeccakInstanceDef::default()`: ratio 2048 with eight 200-bit lanes
(the configuration `builtins_instance_def.rs` also uses for the recursive
layout). -/
def KeccakInstanceDef.default_def : KeccakInstanceDef :=
  KeccakInstanceDef.new 2048 (List.replicate 8 200)

/-- The Keccak builtin runner state (`KeccakBuiltinRunner`, keccak.rs
lines 20-31). -/
structure KeccakBuiltinRunner where
  ratio : Nat
  base : Nat
  cells_per_instance : Nat
  n_input_cells : Nat
  verified_addresses : List Relocatable
  stop_ptr : Option Nat
  included : Bool
  state_rep : List Nat
  instances_per_component : Nat
  deriving DecidableEq, Repr

/-- `KeccakBuiltinRunner::new` (keccak.rs lines 34-46). -/
def KeccakBuiltinRunner.new (d : KeccakInstanceDef) (included : Bool) : KeccakBuiltinRunner :=
  { base := 0
    ratio := KeccakInstanceDef.ratio d
    n_input_cells := d.state_rep.length
    cells_per_instance := KeccakInstanceDef.cells_per_builtin d
    stop_ptr := none
    verified_addresses := []
    included := included
    instances_per_component := d.instance_per_component
    state_rep := d.state_rep }

/-- The input-reading loop of `deduce_memory_cell` (keccak.rs lines
85-98): for each of the `count` cells starting at `addr`, a missing cell
short-circuits to `Ok(None)`, a cell that is not a u64 integer
short-circuits to `Err(KeccakInputCellsNotU64)`, and otherwise the u64
values are collected in order. -/
def read_keccak_inputs (m : Memory) (addr : Relocatable) : Nat → Except RunnerError (Option (List Nat))
  | 0 => .ok (some [])
  | n + 1 =>
    match m.get addr with
    | none => .ok none
    | some v =>
      match maybe_to_u64 v with
      | none => .error .KeccakInputCellsNotU64
      | some u =>
        match read_keccak_inputs m (relocAdd addr 1) n with
        | .error e => .error e
        | .ok none => .ok none
        | .ok (some rest) => .ok (some (u :: rest))

/-- `KeccakBuiltinRunner::deduce_memory_cell` (keccak.rs lines 70-122).
Input cells are never deduced; a memoized block returns `None`; inputs are
read as u64 values; only the head of `state_rep` is bound-checked (the
source's `state_rep.iter().enumerate().next()`); the inputs are
left-padded to 25 lanes, permuted by `f1600`, and the lane at
`address.offset - 1` is returned. -/
def deduce_memory_cell (r : KeccakBuiltinRunner) (address : Relocatable) (memory : Memory) :
    Except RunnerError (Option MaybeRelocatable) :=
  if address.offset % r.cells_per_instance < r.n_input_cells then .ok none
  else
    match relocSub address (address.offset % r.cells_per_instance) with
    | none => .error .KeccakNoFirstInput
    | some first_input_addr =>
      if first_input_addr ∈ r.verified_addresses then .ok none
      else
        match read_keccak_inputs memory first_input_addr r.n_input_cells with
        | .error e => .error e
        | .ok none => .ok none
        | .ok (some input_felts_u64) =>
          match r.state_rep.head? with
          | none => .ok none
          | some bits =>
            match Memory.get_integer memory (relocAdd first_input_addr 0) with
            | .error e => .error (.Memory e)
            | .ok val =>
              if felt_one_shl bits ≤ val then
                .error (.IntegerBiggerThanPowerOfTwo
                  (.relocatable (relocAdd first_input_addr 0)) bits val)
              else
                let padded := left_pad_u64 input_felts_u64 (25 - input_felts_u64.length)
                if padded.length = 25 then
                  .ok (((f1600 padded).get? (address.offset - 1)).map MaybeRelocatable.int)
                else .error .SliceToArrayError

/-- `deduce_memory_cell` paired with the runner state after the call.  The
Rust method takes the runner by `&self` (keccak.rs line 71) and its body
contains no interior mutability, so the post-call runner is the pre-call
runner. -/
def deduce_memory_cell_step (r : KeccakBuiltinRunner) (address : Relocatable) (memory : Memory) :
    KeccakBuiltinRunner × Except RunnerError (Option MaybeRelocatable) :=
  (r, deduce_memory_cell r address memory)

/-- `KeccakBuiltinRunner::get_allocated_memory_units` (keccak.rs lines
124-128). -/
def get_allocated_memory_units (r : KeccakBuiltinRunner) (vm : VirtualMachine) :
    Except MemoryError Nat :=
  match safe_div_usize vm.current_step (KeccakBuiltinRunner.ratio r) with
  | none => .error .ErrorCalculatingMemoryUnits
  | some value => .ok (r.cells_per_instance * value)

/-- Ceiling division, as `num_integer::div_ceil` on `usize`. -/
def divCeil (a b : Nat) : Nat :=
  (a + b - 1) / b

/-- `KeccakBuiltinRunner::get_used_cells` (keccak.rs lines 134-138). -/
def get_used_cells (r : KeccakBuiltinRunner) (segments : MemorySegmentManager) :
    Except MemoryError Nat :=
  match segments.get_segment_used_size r.base with
  | some n => .ok n
  | none => .error .MissingSegmentUsedSizes

/-- `KeccakBuiltinRunner::get_used_instances` (keccak.rs lines 173-179). -/
def get_used_instances (r : KeccakBuiltinRunner) (segments : MemorySegmentManager) :
    Except MemoryError Nat :=
  match get_used_cells r segments with
  | .error e => .error e
  | .ok used_cells => .ok (divCeil used_cells r.cells_per_instance)

/-- `KeccakBuiltinRunner::final_stack` (keccak.rs lines 181-217), with the
post-call runner state made explicit (the method takes `&mut self` and
assigns `self.stop_ptr`). -/
def final_stack (r : KeccakBuiltinRunner) (segments : MemorySegmentManager) (pointer : Relocatable) :
    KeccakBuiltinRunner × Except RunnerError Relocatable :=
  if r.included then
    match relocSub pointer 1 with
    | none => (r, .error (.NoStopPointer KECCAK_BUILTIN_NAME))
    | some stop_pointer_addr =>
      match Memory.get_relocatable segments.memory stop_pointer_addr with
      | .error _ => (r, .error (.NoStopPointer KECCAK_BUILTIN_NAME))
      | .ok stop_pointer =>
        if (r.base : Int) ≠ stop_pointer.segment_index then
          (r, .error (.InvalidStopPointerIndex KECCAK_BUILTIN_NAME stop_pointer r.base))
        else
          match get_used_instances r segments with
          | .error e => (r, .error (.Memory e))
          | .ok num_instances =>
            let used := num_instances * r.cells_per_instance
            if stop_pointer.offset ≠ used then
              (r, .error (.InvalidStopPointer KECCAK_BUILTIN_NAME
                ⟨(r.base : Int), used⟩ ⟨(r.base : Int), stop_pointer.offset⟩))
            else
              ({ r with stop_ptr := some stop_pointer.offset }, .ok stop_pointer_addr)
  else
    ({ r with stop_ptr := some r.base }, .ok pointer)

/-- The runner built from the default instance definition, as in the
repository's `deduce_memory_cell_memory_valid` test. -/
def testRunner : KeccakBuiltinRunner :=
  KeccakBuiltinRunner.new KeccakInstanceDef.default_def true

/-- The memory of the repository's `deduce_memory_cell_memory_valid`
test (keccak.rs lines 525-546). -/
def testMemory : Memory :=
  ⟨[(⟨0, 16⟩, .int 43), (⟨0, 17⟩, .int 199), (⟨0, 18⟩, .int 0), (⟨0, 19⟩, .int 0),
    (⟨0, 20⟩, .int 0), (⟨0, 21⟩, .int 0), (⟨0, 22⟩, .int 0), (⟨0, 23⟩, .int 1),
    (⟨0, 24⟩, .int 0), (⟨0, 25⟩, .int 0), (⟨0, 26⟩, .int 43), (⟨0, 27⟩, .int 199),
    (⟨0, 28⟩, .int 0), (⟨0, 29⟩, .int 0), (⟨0, 30⟩, .int 0), (⟨0, 31⟩, .int 0),
    (⟨0, 32⟩, .int 0), (⟨0, 33⟩, .int 1), (⟨0, 34⟩, .int 0), (⟨0, 35⟩, .int 0)]⟩

/-- A memory holding the 25-lane zero state in the 8 input cells of the
first Keccak block. -/
def zeroMemory : Memory :=
  ⟨[(⟨0, 0⟩, .int 0), (⟨0, 1⟩, .int 0), (⟨0, 2⟩, .int 0), (⟨0, 3⟩, .int 0),
    (⟨0, 4⟩, .int 0), (⟨0, 5⟩, .int 0), (⟨0, 6⟩, .int 0), (⟨0, 7⟩, .int 0)]⟩

/-- A runner with one-bit lanes, `state_rep = [1; 8]`, as in the
repository's `deduce_memory_cell_memory_int_larger_than_bits` test (with
ratio 2048 in place of its 2048-ratio instance). -/
def narrowRunner : KeccakBuiltinRunner :=
  KeccakBuiltinRunner.new (KeccakInstanceDef.new 2048 (List.replicate 8 1)) true

/-- Inputs whose lane 0 respects a 1-bit bound but whose lane 1 (value 43)
violates it. -/
def narrowMemory : Memory :=
  ⟨[(⟨0, 0⟩, .int 0), (⟨0, 1⟩, .int 43), (⟨0, 2⟩, .int 0), (⟨0, 3⟩, .int 0),
    (⟨0, 4⟩, .int 0), (⟨0, 5⟩, .int 0), (⟨0, 6⟩, .int 0), (⟨0, 7⟩, .int 1)]⟩

/-- A block whose first input cell holds a relocatable and whose remaining
input cells are absent. -/
def relocFirstMemory : Memory :=
  ⟨[(⟨0, 0⟩, .relocatable ⟨1, 2⟩)]⟩

/-- A block whose first input cell is absent while its second input cell
holds a relocatable. -/
def holeThenRelocMemory : Memory :=
  ⟨[(⟨0, 1⟩, .relocatable ⟨0, 0⟩)]⟩

/-- A block whose first input cell holds the integer `2^64`, which is not
representable as a u64. -/
def bigIntMemory : Memory :=
  ⟨[(⟨0, 0⟩, .int U64_MOD)]⟩

/-- The memory of the repository's
`deduce_memory_cell_offset_lt_input_cell_length_none` test. -/
def inputIdxMemory : Memory :=
  ⟨[(⟨0, 4⟩, .int 32)]⟩

/-- The memory of the repository's `deduce_memory_cell_get_memory_err`
test: only cell `(0, 35)` is populated. -/
def sparseMemory : Memory :=
  ⟨[(⟨0, 35⟩, .int 0)]⟩

/-- The default runner with the first block's input address memoized, as
in the repository's `deduce_memory_cell_offset_first_addr_error` test. -/
def memoRunner : KeccakBuiltinRunner :=
  { testRunner with verified_addresses := [⟨0, 16⟩] }

/-- The segment state of the repository's `final_stack` test: four
relocatable stack words and one used-size entry of 0. -/
def finalStackSegments : MemorySegmentManager :=
  ⟨⟨[(⟨0, 0⟩, .relocatable ⟨0, 0⟩), (⟨0, 1⟩, .relocatable ⟨0, 1⟩),
     (⟨2, 0⟩, .relocatable ⟨0, 0⟩), (⟨2, 1⟩, .relocatable ⟨0, 0⟩)]⟩, some [0]⟩

/-- The runner of the repository's `get_allocated_memory_units` test:
ratio 10, eight 200-bit lanes. -/
def allocRunner : KeccakBuiltinRunner :=
  KeccakBuiltinRunner.new (KeccakInstanceDef.new 10 (List.replicate 8 200)) true

/-- A VM state with only a step counter, used by the allocation tests. -/
def vmAtStep (n : Nat) : VirtualMachine :=
  ⟨n, ⟨⟨[]⟩, none⟩⟩

/-- The input lanes of the repository's `deduce_memory_cell_memory_valid`
test, as a function from lane index to value. -/
def testInputs (i : Nat) : Nat :=
  [43, 199, 0, 0, 0, 0, 0, 1].getD i 0

/-- The first input address of the instance containing `a`: `a` minus its
index within the instance. -/
def firstInputAddr (a : Relocatable) (cpi : Nat) : Relocatable :=
  ⟨a.segment_index, a.offset - a.offset % cpi⟩

theorem relocAdd_zero (a : Relocatable) : relocAdd a 0 = a := rfl

theorem relocAdd_relocAdd (a : Relocatable) (m n : Nat) :
    relocAdd (relocAdd a m) n = relocAdd a (m + n) := by
  simp [relocAdd, Nat.add_assoc]

theorem relocSub_mod (a : Relocatable) (cpi : Nat) :
    relocSub a (a.offset % cpi) = some (firstInputAddr a cpi) := by
  simp [relocSub, firstInputAddr, Nat.mod_le]

theorem read_keccak_inputs_all (m : Memory) :
    ∀ (n : Nat) (a : Relocatable) (f : Nat → Nat),
      (∀ i, i < n → m.get (relocAdd a i) = some (.int (f i)) ∧ f i < U64_MOD) →
      read_keccak_inputs m a n = .ok (some ((List.range n).map f)) := by
  intro n
  induction n with
  | zero => intro a f _; simp [read_keccak_inputs]
  | succ k ih =>
    intro a f h
    have h0 := h 0 (Nat.succ_pos k)
    rw [relocAdd_zero] at h0
    have hrec := ih (relocAdd a 1) (fun i => f (i + 1)) (by
      intro i hi
      rw [relocAdd_relocAdd, Nat.add_comm 1 i]
      exact h (i + 1) (by omega))
    simp only [read_keccak_inputs, h0.1, maybe_to_u64, if_pos h0.2, hrec,
      List.range_succ_eq_map, List.map_cons, List.map_map]
    rfl

theorem read_keccak_inputs_missing (m : Memory) :
    ∀ (n : Nat) (a : Relocatable) (j : Nat), j < n →
      m.get (relocAdd a j) = none →
      (∀ i, i < j → ∃ u, m.get (relocAdd a i) = some (.int u) ∧ u < U64_MOD) →
      read_keccak_inputs m a n = .ok none := by
  intro n
  induction n with
  | zero => intro a j hj _ _; omega
  | succ k ih =>
    intro a j hj hnone hprev
    match j with
    | 0 =>
      rw [relocAdd_zero] at hnone
      simp [read_keccak_inputs, hnone]
    | j' + 1 =>
      obtain ⟨u, hu, hult⟩ := hprev 0 (Nat.succ_pos j')
      rw [relocAdd_zero] at hu
      have hrec := ih (relocAdd a 1) j' (by omega) (by
          rw [relocAdd_relocAdd, Nat.add_comm 1 j']; exact hnone) (by
        intro i hi
        rw [relocAdd_relocAdd, Nat.add_comm 1 i]
        exact hprev (i + 1) (by omega))
      simp [read_keccak_inputs, hu, maybe_to_u64, if_pos hult, hrec]

theorem read_keccak_inputs_bad (m : Memory) :
    ∀ (n : Nat) (a : Relocatable) (j : Nat) (v : MaybeRelocatable), j < n →
      m.get (relocAdd a j) = some v →
      maybe_to_u64 v = none →
      (∀ i, i < j → ∃ u, m.get (relocAdd a i) = some (.int u) ∧ u < U64_MOD) →
      read_keccak_inputs m a n = .error .KeccakInputCellsNotU64 := by
  intro n
  induction n with
  | zero => intro a j v hj _ _ _; omega
  | succ k ih =>
    intro a j v hj hv hbad hprev
    match j with
    | 0 =>
      rw [relocAdd_zero] at hv
      simp [read_keccak_inputs, hv, hbad]
    | j' + 1 =>
      obtain ⟨u, hu, hult⟩ := hprev 0 (Nat.succ_pos j')
      rw [relocAdd_zero] at hu
      have hrec := ih (relocAdd a 1) j' v (by omega) (by
          rw [relocAdd_relocAdd, Nat.add_comm 1 j']; exact hv) hbad (by
        intro i hi
        rw [relocAdd_relocAdd, Nat.add_comm 1 i]
        exact hprev (i + 1) (by omega))
      simp [read_keccak_inputs, hu, maybe_to_u64, if_pos hult, hrec]

theorem rotl64_lt (x n : Nat) : rotl64 x n < U64_MOD :=
  Nat.mod_lt _ (by norm_num [U64_MOD])

theorem getD_lt_of_forall {b : List Nat} (hb : ∀ x ∈ b, x < U64_MOD) (i : Nat) :
    b.getD i 0 < U64_MOD := by
  rcases h : b[i]? with _ | v
  · simp [List.getD, List.get?_eq_getElem?, h]; norm_num [U64_MOD]
  · simp only [List.getD, List.get?_eq_getElem?, h, Option.getD_some]
    exact hb v (List.getElem?_mem h)

theorem mem_keccakRhoPi_lt (s : List Nat) : ∀ x ∈ keccakRhoPi s, x < U64_MOD := by
  intro x hx
  simp only [keccakRhoPi, List.mem_map] at hx
  obtain ⟨i, _, rfl⟩ := hx
  exact rotl64_lt _ _

theorem mem_keccakChi_lt {b : List Nat} (hb : ∀ x ∈ b, x < U64_MOD) :
    ∀ x ∈ keccakChi b, x < U64_MOD := by
  intro x hx
  simp only [keccakChi, List.mem_map] at hx
  obtain ⟨i, _, rfl⟩ := hx
  exact Nat.xor_lt_two_pow (getD_lt_of_forall hb i)
    (Nat.and_lt_two_pow _ (getD_lt_of_forall hb _))

theorem mem_keccakRound_lt (s : List Nat) {rc : Nat} (hrc : rc < U64_MOD) :
    ∀ x ∈ keccakRound s rc, x < U64_MOD := by
  intro x hx
  have hc : ∀ y ∈ keccakChi (keccakRhoPi (keccakTheta s)), y < U64_MOD :=
    mem_keccakChi_lt (mem_keccakRhoPi_lt _)
  simp only [keccakRound] at hx
  rcases List.mem_or_eq_of_mem_set hx with h | rfl
  · exact hc _ h
  · exact Nat.xor_lt_two_pow (getD_lt_of_forall hc 0) hrc

theorem foldl_keccakRound_lt (l : List Nat) :
    ∀ (s : List Nat), l ≠ [] → (∀ rc ∈ l, rc < U64_MOD) →
      ∀ x ∈ List.foldl keccakRound s l, x < U64_MOD := by
  induction l with
  | nil => intro s h _; exact absurd rfl h
  | cons a t ih =>
    intro s _ hrc x hx
    match t with
    | [] =>
      simp only [List.foldl_cons, List.foldl_nil] at hx
      exact mem_keccakRound_lt s (hrc a (List.mem_cons_self a [])) x hx
    | b :: t' =>
      exact ih (keccakRound s a) (by simp)
        (fun rc h => hrc rc (List.mem_cons_of_mem a h)) x hx

theorem f1600_lt (s : List Nat) : ∀ x ∈ f1600 s, x < U64_MOD := by
  refine foldl_keccakRound_lt _ s (by decide) ?_
  intro rc h
  fin_cases h <;> decide

theorem deduce_memory_cell_run (r : KeccakBuiltinRunner) (a : Relocatable) (m : Memory)
    (f : Nat → Nat) (bits : Nat)
    (hn : r.n_input_cells ≤ a.offset % r.cells_per_instance)
    (hpos : 0 < r.n_input_cells) (h25 : r.n_input_cells ≤ 25)
    (hver : firstInputAddr a r.cells_per_instance ∉ r.verified_addresses)
    (hmem : ∀ i, i < r.n_input_cells →
      m.get (relocAdd (firstInputAddr a r.cells_per_instance) i) = some (.int (f i)) ∧
      f i < U64_MOD)
    (hsr : r.state_rep.head? = some bits) :
    deduce_memory_cell r a m =
      if felt_one_shl bits ≤ f 0 then
        .error (.IntegerBiggerThanPowerOfTwo
          (.relocatable (firstInputAddr a r.cells_per_instance)) bits (f 0))
      else
        .ok (((f1600 (left_pad_u64 ((List.range r.n_input_cells).map f)
          (25 - r.n_input_cells))).get? (a.offset - 1)).map MaybeRelocatable.int) := by
  have hread := read_keccak_inputs_all m r.n_input_cells (firstInputAddr a r.cells_per_instance) f hmem
  have h0 := hmem 0 hpos
  rw [relocAdd_zero] at h0
  have hn' : ¬ a.offset % r.cells_per_instance < r.n_input_cells := by omega
  have hgi : Memory.get_integer m (relocAdd (firstInputAddr a r.cells_per_instance) 0) = .ok (f 0) := by
    unfold Memory.get_integer
    rw [relocAdd_zero, h0.1]
  have hlen : (left_pad_u64 ((List.range r.n_input_cells).map f) (25 - ((List.range r.n_input_cells).map f).length)).length = 25 := by
    simp [left_pad_u64]
    omega
  simp only [deduce_memory_cell, hn', if_false, relocSub_mod, hver, hread, hsr, hgi,
    List.length_map, List.length_range, hlen, if_true]
  split
  · rfl
  · simp [List.length_map, List.length_range] at hlen
    simp [hlen]

/-- C1 (counterexample): at the repository's own test input — default
runner, output cell `(0, 25)` (index 9, so output slot `9 - 8 = 1`),
inputs `[43, 199, 0, 0, 0, 0, 0, 1]` at `(0, 16)..(0, 23)` —
`deduce_memory_cell` returns `3086936446498698982`, while lane
`index - n_input_cells = 1` of `f1600` of the state whose input lanes are
those inputs is `3132031691999304634`: the claimed output slot is not what
is returned. -/
theorem keccak_deduce_output_lane_counterexample :
    deduce_memory_cell testRunner ⟨0, 25⟩ testMemory = .ok (some (.int 3086936446498698982)) ∧
    ((f1600 ((List.range 8).map testInputs ++ List.replicate 17 0)).get? (25 % 16 - 8)).map
      MaybeRelocatable.int = some (.int 3132031691999304634) ∧
    (3132031691999304634 : Nat) ≠ 3086936446498698982 :=
  ⟨by decide, by decide, by decide⟩

/-- C1 (amended): for a deduced Keccak output read — index within the
instance at least `n_input_cells` (positive and at most 25), block not
memoized, all `n_input_cells` inputs present as u64 integers, and input
lane 0 below the bit bound of the head of `state_rep` —
`deduce_memory_cell` returns the lane at position `address.offset - 1`
(`None` when that position is not below 25) of the Keccak-f[1600]
permutation of the 25-lane state obtained by left-padding the inputs with
zeros, i.e. the inputs occupy the last `n_input_cells` lanes. -/
theorem keccak_deduce_output_lane_spec (r : KeccakBuiltinRunner) (a : Relocatable) (m : Memory)
    (f : Nat → Nat) (bits : Nat)
    (hn : r.n_input_cells ≤ a.offset % r.cells_per_instance)
    (hpos : 0 < r.n_input_cells) (h25 : r.n_input_cells ≤ 25)
    (hver : firstInputAddr a r.cells_per_instance ∉ r.verified_addresses)
    (hmem : ∀ i, i < r.n_input_cells →
      m.get (relocAdd (firstInputAddr a r.cells_per_instance) i) = some (.int (f i)) ∧
      f i < U64_MOD)
    (hsr : r.state_rep.head? = some bits)
    (hbound : f 0 < felt_one_shl bits) :
    deduce_memory_cell r a m =
      .ok (((f1600 (left_pad_u64 ((List.range r.n_input_cells).map f)
        (25 - r.n_input_cells))).get? (a.offset - 1)).map MaybeRelocatable.int) := by
  rw [deduce_memory_cell_run r a m f bits hn hpos h25 hver hmem hsr, if_neg (by omega)]

/-- Witness for C1 (amended): the first block with all-zero inputs read at
output cell `(0, 9)` yields lane 8 of `f1600` of the zero state. -/
theorem keccak_deduce_output_lane_spec_witness :
    deduce_memory_cell testRunner ⟨0, 9⟩ zeroMemory = .ok (some (.int 12479658147685402012)) := by
  have h := keccak_deduce_output_lane_spec testRunner ⟨0, 9⟩ zeroMemory (fun _ => 0) 200
    (by decide) (by decide) (by decide) (by decide)
    (fun i hi => by
      have h8 : testRunner.n_input_cells = 8 := rfl
      rw [h8] at hi
      interval_cases i <;> exact ⟨by decide, by decide⟩)
    (by decide) (by decide)
  rw [h]
  decide

/-- C2 (counterexample): with `state_rep = [1; 8]`, input lane 1 holds 43,
which violates its 1-bit bound (`2^1 ≤ 43`), yet `deduce_memory_cell`
succeeds — only lane 0 is ever bound-checked. -/
theorem keccak_deduce_bound_check_counterexample :
    deduce_memory_cell narrowRunner ⟨0, 8⟩ narrowMemory = .ok (some (.int 2983648829183949437)) ∧
    narrowMemory.get ⟨0, 1⟩ = some (.int 43) ∧
    narrowRunner.state_rep.getD 1 0 = 1 ∧
    felt_one_shl 1 ≤ 43 :=
  ⟨by decide, by decide, by decide, by decide⟩

/-- C2 (amended): only input lane 0 is checked against its `state_rep`
bound: with all inputs present as u64 integers, `deduce_memory_cell` fails
with `IntegerBiggerThanPowerOfTwo` exactly when lane 0 reaches
`2^state_rep[0]`, and succeeds regardless of the values of lanes 1 and
beyond otherwise. -/
theorem keccak_deduce_bound_check_spec (r : KeccakBuiltinRunner) (a : Relocatable) (m : Memory)
    (f : Nat → Nat) (bits : Nat)
    (hn : r.n_input_cells ≤ a.offset % r.cells_per_instance)
    (hpos : 0 < r.n_input_cells) (h25 : r.n_input_cells ≤ 25)
    (hver : firstInputAddr a r.cells_per_instance ∉ r.verified_addresses)
    (hmem : ∀ i, i < r.n_input_cells →
      m.get (relocAdd (firstInputAddr a r.cells_per_instance) i) = some (.int (f i)) ∧
      f i < U64_MOD)
    (hsr : r.state_rep.head? = some bits) :
    (felt_one_shl bits ≤ f 0 →
      deduce_memory_cell r a m = .error (.IntegerBiggerThanPowerOfTwo
        (.relocatable (firstInputAddr a r.cells_per_instance)) bits (f 0))) ∧
    (f 0 < felt_one_shl bits →
      deduce_memory_cell r a m =
        .ok (((f1600 (left_pad_u64 ((List.range r.n_input_cells).map f)
          (25 - r.n_input_cells))).get? (a.offset - 1)).map MaybeRelocatable.int)) := by
  constructor
  · intro hb
    rw [deduce_memory_cell_run r a m f bits hn hpos h25 hver hmem hsr, if_pos hb]
  · intro hb
    rw [deduce_memory_cell_run r a m f bits hn hpos h25 hver hmem hsr, if_neg (by omega)]

/-- Witness for C2 (amended): the repository's
`deduce_memory_cell_memory_int_larger_than_bits` scenario — lane 0 holds
43 with a 1-bit bound — fails with `IntegerBiggerThanPowerOfTwo((0,16), 1, 43)`. -/
theorem keccak_deduce_bound_check_witness :
    deduce_memory_cell narrowRunner ⟨0, 25⟩ testMemory =
      .error (.IntegerBiggerThanPowerOfTwo (.relocatable ⟨0, 16⟩) 1 43) := by
  have h := (keccak_deduce_bound_check_spec narrowRunner ⟨0, 25⟩ testMemory testInputs 1
    (by decide) (by decide) (by decide) (by decide)
    (fun i hi => by
      have h8 : narrowRunner.n_input_cells = 8 := rfl
      rw [h8] at hi
      interval_cases i <;> exact ⟨by decide, by decide⟩)
    (by decide)).1 (by decide)
  exact h

/-- C3 (counterexample): after a successful output deduction with the
default runner, nothing is recorded in `verified_addresses` (the method
takes the runner immutably), and the subsequent call for the same output
slot again returns `Some`, not `None`. -/
theorem keccak_deduce_memoized_counterexample :
    (deduce_memory_cell_step testRunner ⟨0, 25⟩ testMemory).1.verified_addresses = [] ∧
    (deduce_memory_cell_step testRunner ⟨0, 25⟩ testMemory).2 =
      .ok (some (.int 3086936446498698982)) ∧
    (deduce_memory_cell_step
      (deduce_memory_cell_step testRunner ⟨0, 25⟩ testMemory).1 ⟨0, 25⟩ testMemory).2 =
      .ok (some (.int 3086936446498698982)) :=
  ⟨rfl, by decide, by decide⟩

/-- C3 (amended): `deduce_memory_cell` itself never records addresses; the
memoization check only reads `verified_addresses`: whenever a block's
first input address is already present in the set (necessarily added by
other means), every output-slot read of that block returns `None` and the
runner is unchanged. -/
theorem keccak_deduce_memoized_spec (r : KeccakBuiltinRunner) (a : Relocatable) (m : Memory)
    (hn : r.n_input_cells ≤ a.offset % r.cells_per_instance)
    (hver : firstInputAddr a r.cells_per_instance ∈ r.verified_addresses) :
    deduce_memory_cell_step r a m = (r, .ok none) := by
  have hn' : ¬ a.offset % r.cells_per_instance < r.n_input_cells := by omega
  simp [deduce_memory_cell_step, deduce_memory_cell, hn', relocSub_mod, hver]

/-- Witness for C3 (amended): the repository's
`deduce_memory_cell_offset_first_addr_error` scenario — `(0, 16)` pushed
into `verified_addresses` by the test — returns `None` at `(0, 25)`. -/
theorem keccak_deduce_memoized_witness :
    deduce_memory_cell_step memoRunner ⟨0, 25⟩ testMemory = (memoRunner, .ok none) :=
  keccak_deduce_memoized_spec memoRunner ⟨0, 25⟩ testMemory (by decide) (by decide)

/-- C4 (counterexample): deducing the first output cell `(0, 8)` of a
block whose 8 input cells all hold zero yields `10113917136857017974`
(lane 7 of `f1600` of the zero state, because the code indexes the output
by `address.offset - 1 = 7`), not the claimed `3086936446498698982`. -/
theorem keccak_deduce_zero_block_counterexample :
    deduce_memory_cell testRunner ⟨0, 8⟩ zeroMemory = .ok (some (.int 10113917136857017974)) ∧
    (10113917136857017974 : Nat) ≠ 3086936446498698982 :=
  ⟨by decide, by decide⟩

/-- C4 (amended): the value `3086936446498698982` is what the repository's
`deduce_memory_cell_memory_valid` test actually observes: it is produced
for output cell `(0, 25)` of the block whose inputs at `(0, 16)..(0, 23)`
are `[43, 199, 0, 0, 0, 0, 0, 1]` (not for a zero block), with the
default `state_rep = [200; 8]`. -/
theorem keccak_deduce_test_vector :
    deduce_memory_cell testRunner ⟨0, 25⟩ testMemory = .ok (some (.int 3086936446498698982)) := by
  decide

/-- C5 (confirmed): `final_stack` with `included = true` reads a
relocatable at `pointer - 1`; a segment-index mismatch with `base` fails
with `InvalidStopPointerIndex`; an offset differing from
`used_instances · cells_per_instance` fails with `InvalidStopPointer`;
otherwise `stop_ptr` is set to that offset and `pointer - 1` is returned.
With `included = false` nothing is consumed, `stop_ptr` is set to `base`,
and the pointer is returned unchanged. -/
theorem keccak_final_stack_spec (r : KeccakBuiltinRunner) (segments : MemorySegmentManager)
    (pointer : Relocatable) :
    (r.included = false →
      final_stack r segments pointer = ({ r with stop_ptr := some r.base }, .ok pointer)) ∧
    (r.included = true →
      ∀ pm1 sp, relocSub pointer 1 = some pm1 →
        Memory.get_relocatable segments.memory pm1 = .ok sp →
        ((r.base : Int) ≠ sp.segment_index →
          final_stack r segments pointer =
            (r, .error (.InvalidStopPointerIndex KECCAK_BUILTIN_NAME sp r.base))) ∧
        (∀ n, (r.base : Int) = sp.segment_index → get_used_instances r segments = .ok n →
          (sp.offset ≠ n * r.cells_per_instance →
            final_stack r segments pointer =
              (r, .error (.InvalidStopPointer KECCAK_BUILTIN_NAME
                ⟨(r.base : Int), n * r.cells_per_instance⟩ ⟨(r.base : Int), sp.offset⟩))) ∧
          (sp.offset = n * r.cells_per_instance →
            final_stack r segments pointer =
              ({ r with stop_ptr := some sp.offset }, .ok pm1)))) := by
  constructor
  · intro hinc
    simp [final_stack, hinc]
  · intro hinc pm1 sp hpm1 hsp
    constructor
    · intro hne
      simp [final_stack, hinc, hpm1, hsp, hne]
    · intro n hseg hn
      constructor
      · intro hoff
        simp [final_stack, hinc, hpm1, hsp, hseg, hn, hoff]
      · intro hoff
        simp [final_stack, hinc, hpm1, hsp, hseg, hn, hoff]

/-- Witness for C5: the repository's `final_stack` test — stop pointer
word `(0, 0)` at `(2, 1)`, used size 0 — returns `(2, 1)` and sets
`stop_ptr := 0`. -/
theorem keccak_final_stack_witness :
    final_stack testRunner finalStackSegments ⟨2, 2⟩ =
      ({ testRunner with stop_ptr := some 0 }, .ok ⟨2, 1⟩) :=
  (((keccak_final_stack_spec testRunner finalStackSegments ⟨2, 2⟩).2 (by decide)
    ⟨2, 1⟩ ⟨0, 0⟩ (by decide) (by decide)).2 0 (by decide) (by decide)).2 (by decide)

/-- C6 (counterexample): a block with input cell `(0, 1)` absent but whose
earlier input cell `(0, 0)` holds a relocatable makes `deduce_memory_cell`
fail with `KeccakInputCellsNotU64` instead of returning `None`: a missing
input yields `None` only when every earlier input cell is a present u64. -/
theorem keccak_deduce_none_counterexample :
    deduce_memory_cell testRunner ⟨0, 8⟩ relocFirstMemory = .error .KeccakInputCellsNotU64 ∧
    relocFirstMemory.get ⟨0, 1⟩ = none :=
  ⟨by decide, by decide⟩

/-- C6 (amended): `deduce_memory_cell` returns `None` for every address
whose index within the instance is below `n_input_cells`; and for an
output-index address it returns `None` whenever some input cell is absent
and every input cell at a smaller index is present as a u64 integer. -/
theorem keccak_deduce_none_spec (r : KeccakBuiltinRunner) (a : Relocatable) (m : Memory) :
    (a.offset % r.cells_per_instance < r.n_input_cells →
      deduce_memory_cell r a m = .ok none) ∧
    (∀ j, r.n_input_cells ≤ a.offset % r.cells_per_instance → j < r.n_input_cells →
      m.get (relocAdd (firstInputAddr a r.cells_per_instance) j) = none →
      (∀ i, i < j → ∃ u,
        m.get (relocAdd (firstInputAddr a r.cells_per_instance) i) = some (.int u) ∧
        u < U64_MOD) →
      deduce_memory_cell r a m = .ok none) := by
  constructor
  · intro hlt
    simp [deduce_memory_cell, hlt]
  · intro j hn hj hnone hprev
    have hn' : ¬ a.offset % r.cells_per_instance < r.n_input_cells := by omega
    by_cases hv : firstInputAddr a r.cells_per_instance ∈ r.verified_addresses
    · simp [deduce_memory_cell, hn', relocSub_mod, hv]
    · have hread := read_keccak_inputs_missing m r.n_input_cells
        (firstInputAddr a r.cells_per_instance) j hj hnone hprev
      simp [deduce_memory_cell, hn', relocSub_mod, hv, hread]

/-- Witness for C6: the repository's
`deduce_memory_cell_offset_lt_input_cell_length_none` scenario (input
index 2) and its `deduce_memory_cell_get_memory_err` scenario (output
index 15 with the first input cell absent) both return `None`. -/
theorem keccak_deduce_none_witness :
    deduce_memory_cell testRunner ⟨0, 2⟩ inputIdxMemory = .ok none ∧
    deduce_memory_cell testRunner ⟨0, 15⟩ sparseMemory = .ok none := by
  constructor
  · exact (keccak_deduce_none_spec testRunner ⟨0, 2⟩ inputIdxMemory).1 (by decide)
  · exact (keccak_deduce_none_spec testRunner ⟨0, 15⟩ sparseMemory).2 0
      (by decide) (by decide) (by decide) (fun i hi => absurd hi (by omega))

/-- C7 (confirmed): `get_allocated_memory_units` returns
`cells_per_instance · (current_step / ratio)` when the ratio divides the
current step, and fails with `ErrorCalculatingMemoryUnits` otherwise. -/
theorem keccak_allocated_units_spec (r : KeccakBuiltinRunner) (vm : VirtualMachine) :
    (KeccakBuiltinRunner.ratio r ∣ vm.current_step →
      get_allocated_memory_units r vm =
        .ok (r.cells_per_instance * (vm.current_step / KeccakBuiltinRunner.ratio r))) ∧
    (¬ KeccakBuiltinRunner.ratio r ∣ vm.current_step →
      get_allocated_memory_units r vm = .error .ErrorCalculatingMemoryUnits) := by
  constructor
  · intro hd
    have h : vm.current_step % KeccakBuiltinRunner.ratio r = 0 :=
      Nat.dvd_iff_mod_eq_zero.mp hd
    simp [get_allocated_memory_units, safe_div_usize, h]
  · intro hnd
    have h : vm.current_step % KeccakBuiltinRunner.ratio r ≠ 0 := fun hc =>
      hnd (Nat.dvd_iff_mod_eq_zero.mpr hc)
    simp [get_allocated_memory_units, safe_div_usize, h]

/-- Witness for C7: the repository's `get_allocated_memory_units` test —
ratio 10 at step 10 gives 16 cells — and the failing step 7. -/
theorem keccak_allocated_units_witness :
    get_allocated_memory_units allocRunner (vmAtStep 10) = .ok 16 ∧
    get_allocated_memory_units allocRunner (vmAtStep 7) = .error .ErrorCalculatingMemoryUnits :=
  ⟨(keccak_allocated_units_spec allocRunner (vmAtStep 10)).1 (by decide),
   (keccak_allocated_units_spec allocRunner (vmAtStep 7)).2 (by decide)⟩

/-- C8 (confirmed): whenever `deduce_memory_cell` returns `Ok(Some(v))`,
the value `v` is the field-element variant, built from a u64 lane and
hence below `2^64`; it is never a relocatable. -/
theorem keccak_deduce_value_is_field_u64 (r : KeccakBuiltinRunner) (a : Relocatable)
    (m : Memory) (v : MaybeRelocatable)
    (h : deduce_memory_cell r a m = .ok (some v)) :
    ∃ x, v = .int x ∧ x < U64_MOD := by
  unfold deduce_memory_cell at h
  repeat' split at h
  any_goals exact Option.noConfusion (Except.ok.inj h)
  any_goals exact Except.noConfusion h
  simp only [] at h
  split at h
  · rw [Except.ok.injEq] at h
    obtain ⟨lane, hlane, rfl⟩ := Option.map_eq_some'.mp h
    rw [List.get?_eq_getElem?] at hlane
    exact ⟨lane, rfl, f1600_lt _ lane (List.getElem?_mem hlane)⟩
  · exact Except.noConfusion h

/-- Witness for C8: the value deduced at the repository's test input is
the field element `3086936446498698982`, below `2^64`. -/
theorem keccak_deduce_value_is_field_u64_witness :
    ∃ x, MaybeRelocatable.int 3086936446498698982 = .int x ∧ x < U64_MOD :=
  keccak_deduce_value_is_field_u64 testRunner ⟨0, 25⟩ testMemory _ (by decide)

/-- C9 (counterexample): with the first input cell absent and the second
holding a relocatable, `deduce_memory_cell` returns `None` rather than
failing with `KeccakInputCellsNotU64`: a present non-u64 input only
triggers the error when every earlier input cell is a present u64. -/
theorem keccak_deduce_not_u64_counterexample :
    deduce_memory_cell testRunner ⟨0, 8⟩ holeThenRelocMemory = .ok none ∧
    holeThenRelocMemory.get ⟨0, 1⟩ = some (.relocatable ⟨0, 0⟩) :=
  ⟨by decide, by decide⟩

/-- C9 (amended): for an output-index address of a non-memoized block, if
some input cell is present but holds a relocatable or an integer of 64 or
more bits, and every input cell at a smaller index is present as a u64
integer, `deduce_memory_cell` fails with `KeccakInputCellsNotU64` — the
configured `state_rep` bit widths play no role in this check. -/
theorem keccak_deduce_not_u64_spec (r : KeccakBuiltinRunner) (a : Relocatable) (m : Memory)
    (j : Nat) (v : MaybeRelocatable)
    (hn : r.n_input_cells ≤ a.offset % r.cells_per_instance)
    (hver : firstInputAddr a r.cells_per_instance ∉ r.verified_addresses)
    (hj : j < r.n_input_cells)
    (hv : m.get (relocAdd (firstInputAddr a r.cells_per_instance) j) = some v)
    (hbad : maybe_to_u64 v = none)
    (hprev : ∀ i, i < j → ∃ u,
      m.get (relocAdd (firstInputAddr a r.cells_per_instance) i) = some (.int u) ∧
      u < U64_MOD) :
    deduce_memory_cell r a m = .error .KeccakInputCellsNotU64 := by
  have hn' : ¬ a.offset % r.cells_per_instance < r.n_input_cells := by omega
  have hread := read_keccak_inputs_bad m r.n_input_cells
    (firstInputAddr a r.cells_per_instance) j v hj hv hbad hprev
  simp [deduce_memory_cell, hn', relocSub_mod, hver, hread]

/-- Witness for C9 (amended): a first input cell holding the integer
`2^64` — not u64-representable though the default 200-bit lane bound
allows it — fails with `KeccakInputCellsNotU64`. -/
theorem keccak_deduce_not_u64_witness :
    deduce_memory_cell testRunner ⟨0, 8⟩ bigIntMemory = .error .KeccakInputCellsNotU64 :=
  keccak_deduce_not_u64_spec testRunner ⟨0, 8⟩ bigIntMemory 0 (.int U64_MOD)
    (by decide) (by decide) (by decide) (by decide) (by decide)
    (fun i hi => absurd hi (by omega))

/-- C10 (confirmed): `deduce_memory_cell` takes the runner by immutable
reference and modifies no runner field — the post-call runner equals the
pre-call runner (in particular `verified_addresses` and `stop_ptr` are
unchanged) — so a repeated call with the same address and memory returns
the same result. -/
theorem keccak_deduce_frame (r : KeccakBuiltinRunner) (a : Relocatable) (m : Memory) :
    (deduce_memory_cell_step r a m).1 = r ∧
    (deduce_memory_cell_step ((deduce_memory_cell_step r a m).1) a m).2 =
      (deduce_memory_cell_step r a m).2 :=
  ⟨rfl, rfl⟩

end CairoRs
